import Mathlib

set_option maxHeartbeats 1000000

/-!
Shallow embedding of `src/app.py` (TopSearchTerms-Streamlit).

The program is a single Streamlit page that
* fetches the distinct country list from BigQuery (`get_countries`, cached 3600 s),
* queries the top-5 weekly search terms for a (country, date range) selection
  (`execute_query` running `TOP_TERMS_SQL`, cached 600 s),
* normalizes the sidebar date input and picks a default country
  (`pick_default_country`), and
* classifies BigQuery failures into a single quota message or an
  "unexpected error" message and stops the script.

Dates are embedded as `Nat` (only their linear order matters), scores as `Int`.
The BigQuery table `bigquery-public-data.google_trends.international_top_terms`
is embedded as a list of `SourceRow`.
-/

/-- One row of the `international_top_terms` source table: the columns the
program reads (`term`, `week`, `score`, `rank`, `country_name`).
`country_name` is an `Option` because the table admits NULL countries
(`get_countries` filters them out). -/
structure SourceRow where
  term : String
  week : Nat
  score : Int
  rank : Nat
  country_name : Option String
deriving DecidableEq, Repr

/-- One output row of `TOP_TERMS_SQL`: `SELECT term, week_date AS date, score, rank`.
Note `rank` is the source table's `rank` column, not the computed `rnk`. -/
structure TopTermRow where
  term : String
  date : Nat
  score : Int
  rank : Nat
deriving DecidableEq, Repr

/-- The WHERE clause of the `weekly_terms` CTE:
`DATE(week) BETWEEN @start_date AND @end_date AND country_name = @country`. -/
def inWindow (s e : Nat) (c : String) (r : SourceRow) : Bool :=
  decide (s ≤ r.week) && decide (r.week ≤ e) && decide (r.country_name = some c)

/-- The filtered source rows, tagged with their position in the table so that
the unspecified tie-break of `ROW_NUMBER` can be modelled as a stable one. -/
def windowRows (tbl : List SourceRow) (s e : Nat) (c : String) : List (Nat × SourceRow) :=
  tbl.enum.filter (fun q => inWindow s e c q.2)

/-- `scoreBefore a b`: row `a` precedes row `b` under `ORDER BY score DESC`,
ties broken by source position (the engine's tie-break is unspecified; any
fixed total order is a faithful model). -/
def scoreBefore (a b : Nat × SourceRow) : Bool :=
  decide (b.2.score < a.2.score) || (decide (a.2.score = b.2.score) && decide (a.1 < b.1))

/-- `PARTITION BY country_name, DATE(week)`. -/
def sameBucket (a b : Nat × SourceRow) : Bool :=
  decide (a.2.country_name = b.2.country_name) && decide (a.2.week = b.2.week)

/-- `ROW_NUMBER() OVER (PARTITION BY country_name, DATE(week) ORDER BY score DESC)`
of row `p` within the filtered rows `l`. -/
def rowNumber (l : List (Nat × SourceRow)) (p : Nat × SourceRow) : Nat :=
  1 + (l.filter (fun q => sameBucket q p && scoreBefore q p)).length

/-- The `weekly_terms` CTE of `TOP_TERMS_SQL`: each filtered row paired with its
computed `rnk`. -/
def weekly_terms (tbl : List SourceRow) (s e : Nat) (c : String) :
    List ((Nat × SourceRow) × Nat) :=
  (windowRows tbl s e c).map (fun p => (p, rowNumber (windowRows tbl s e c) p))

/-- The rows surviving `WHERE rnk <= 5`. -/
def keptRows (tbl : List SourceRow) (s e : Nat) (c : String) :
    List ((Nat × SourceRow) × Nat) :=
  (weekly_terms tbl s e c).filter (fun pr => decide (pr.2 ≤ 5))

/-- `ORDER BY date, rank` (the emitted `rank` is the source column). -/
def orderByLe (a b : (Nat × SourceRow) × Nat) : Bool :=
  decide (a.1.2.week < b.1.2.week) ||
    (decide (a.1.2.week = b.1.2.week) && decide (a.1.2.rank ≤ b.1.2.rank))

/-- `orderByLe` as a `Prop`-valued relation for `List.insertionSort`. -/
def orderByLeP (a b : (Nat × SourceRow) × Nat) : Prop :=
  orderByLe a b = true

instance : DecidableRel orderByLeP := fun a b => instDecidableEqBool (orderByLe a b) true

instance : IsTrans ((Nat × SourceRow) × Nat) orderByLeP :=
  ⟨fun a b c h1 h2 => by
    simp only [orderByLeP, orderByLe, Bool.or_eq_true, Bool.and_eq_true,
      decide_eq_true_eq] at h1 h2 ⊢
    omega⟩

instance : IsTotal ((Nat × SourceRow) × Nat) orderByLeP :=
  ⟨fun a b => by
    simp only [orderByLeP, orderByLe, Bool.or_eq_true, Bool.and_eq_true, decide_eq_true_eq]
    omega⟩

/-- The claimed output ordering of the query: by date ascending, then by the
emitted `rank` column ascending. -/
def dateRankLe (a b : TopTermRow) : Prop :=
  a.date < b.date ∨ (a.date = b.date ∧ a.rank ≤ b.rank)

/-- The complete `TOP_TERMS_SQL` query result for parameters
`(@start_date, @end_date, @country) = (s, e, c)` against table `tbl`:
filter, rank, keep `rnk <= 5`, `ORDER BY date, rank`, project the output columns. -/
def topTermsQuery (tbl : List SourceRow) (s e : Nat) (c : String) : List TopTermRow :=
  (List.insertionSort orderByLeP (keptRows tbl s e c)).map
    (fun pr => ⟨pr.1.2.term, pr.1.2.week, pr.1.2.score, pr.1.2.rank⟩)

/-- The rows of the date bucket `d` among the filtered rows. -/
def bucketRows (tbl : List SourceRow) (s e : Nat) (c : String) (d : Nat) :
    List (Nat × SourceRow) :=
  (windowRows tbl s e c).filter (fun q => decide (q.2.week = d))

/-- Number of distinct terms appearing on date `d` in range (the `N` of the
spec sentence about rank values). -/
def distinctTermCount (tbl : List SourceRow) (s e : Nat) (c : String) (d : Nat) : Nat :=
  (((bucketRows tbl s e c d).map (fun q => q.2.term)).dedup).length

/-- How many bucket rows precede `p` in the `ORDER BY score DESC` window order. -/
def bucketBeforeCount (tbl : List SourceRow) (s e : Nat) (c : String) (d : Nat)
    (p : Nat × SourceRow) : Nat :=
  ((bucketRows tbl s e c d).filter (fun q => scoreBefore q p)).length

/-- The exact text of `TOP_TERMS_SQL` in `src/app.py`. -/
def TOP_TERMS_SQL : String := "
WITH weekly_terms AS (
  SELECT
    term,
    DATE(week) AS week_date,
    score,
    rank,
    ROW_NUMBER() OVER (
      PARTITION BY country_name, DATE(week)
      ORDER BY score DESC
    ) AS rnk
  FROM `bigquery-public-data.google_trends.international_top_terms`
  WHERE DATE(week) BETWEEN @start_date AND @end_date
    AND country_name = @country
)
SELECT term, week_date AS date, score, rank
FROM weekly_terms
WHERE rnk <= 5
ORDER BY date, rank
"

/-- The exact text of the country-list query `q` in `get_countries`. -/
def COUNTRIES_SQL : String := "
      SELECT DISTINCT country_name
      FROM `bigquery-public-data.google_trends.international_top_terms`
      WHERE country_name IS NOT NULL
      ORDER BY country_name
    "

/-- A bound scalar parameter value: the program binds dates and strings only. -/
inductive ParamValue where
  | date (d : Nat)
  | string (s : String)
deriving DecidableEq, Repr

/-- `bigquery.ScalarQueryParameter(name, type, value)`. -/
structure ScalarQueryParameter where
  name : String
  type_ : String
  value : ParamValue
deriving DecidableEq, Repr

/-- The fields of `bigquery.QueryJobConfig` the program sets. -/
structure QueryJobConfig where
  use_query_cache : Bool
  maximum_bytes_billed : Nat
  query_parameters : List ScalarQueryParameter
deriving DecidableEq, Repr

/-- The job config built in `get_countries`. -/
def countries_job_cfg : QueryJobConfig := ⟨true, 1000000000, []⟩

/-- The job config built in `execute_query` for inputs `(start, end, country)`. -/
def top_terms_job_cfg (s e : Nat) (c : String) : QueryJobConfig :=
  ⟨true, 1000000000,
    [⟨"start_date", "DATE", ParamValue.date s⟩,
     ⟨"end_date", "DATE", ParamValue.date e⟩,
     ⟨"country", "STRING", ParamValue.string c⟩]⟩

/-- What `client.query(sql, job_config)` receives: the query text and the config. -/
structure QueryRequest where
  sql : String
  cfg : QueryJobConfig
deriving DecidableEq, Repr

/-- The request submitted by `execute_query` for inputs `(country, start, end)`. -/
def top_terms_request (c : String) (s e : Nat) : QueryRequest :=
  ⟨TOP_TERMS_SQL, top_terms_job_cfg s e c⟩

/-- The request submitted by `get_countries`. -/
def countries_request : QueryRequest := ⟨COUNTRIES_SQL, countries_job_cfg⟩

/-- The failure classes of `google.api_core.exceptions` the program
distinguishes: the three caught in the first `except` clause
(`Forbidden`, `BadRequest`, `TooManyRequests`) and everything else. -/
inductive BQError where
  | forbidden (msg : String)
  | badRequest (msg : String)
  | tooManyRequests (msg : String)
  | other (msg : String)
deriving DecidableEq, Repr

/-- The single user-facing message for the first three failure classes. -/
def quotaMessage : String :=
  "BigQuery quota or credits exceeded. Please try again later."

/-- The try/except of `execute_query`: a successful run is returned as is; a
`Forbidden`/`BadRequest`/`TooManyRequests` failure becomes `st.error(quotaMessage)`
followed by `st.stop()`; any other exception becomes the "Unexpected error while
loading search terms" message followed by `st.stop()`.  `st.stop()` is embedded
as `Except.error` carrying the reported message: no rows are returned. -/
def execute_query_outcome (run : Except BQError (List TopTermRow)) :
    Except String (List TopTermRow) :=
  match run with
  | Except.ok rows => Except.ok rows
  | Except.error (BQError.forbidden _) => Except.error quotaMessage
  | Except.error (BQError.badRequest _) => Except.error quotaMessage
  | Except.error (BQError.tooManyRequests _) => Except.error quotaMessage
  | Except.error (BQError.other m) =>
      Except.error ("Unexpected error while loading search terms: " ++ m)

/-- The try/except of `get_countries`, identical but for the message text. -/
def get_countries_outcome (run : Except BQError (List String)) :
    Except String (List String) :=
  match run with
  | Except.ok cs => Except.ok cs
  | Except.error (BQError.forbidden _) => Except.error quotaMessage
  | Except.error (BQError.badRequest _) => Except.error quotaMessage
  | Except.error (BQError.tooManyRequests _) => Except.error quotaMessage
  | Except.error (BQError.other m) =>
      Except.error ("Unexpected error while loading countries: " ++ m)

/-- Modelled from the spec: the warehouse-side enforcement of
`maximum_bytes_billed` is BigQuery behaviour, not code in `src/app.py` — the
source only sets the field on both job configs.  Per the spec, a query whose
scan would exceed the ceiling is rejected by the warehouse (a `BadRequest`,
i.e. MalformedRequest-class failure) rather than silently truncated. -/
def warehouseRun {α : Type} (cfg : QueryJobConfig) (bytesScanned : Nat) (rows : List α) :
    Except BQError (List α) :=
  if cfg.maximum_bytes_billed < bytesScanned then
    Except.error (BQError.badRequest ("bytesBilledLimitExceeded"))
  else Except.ok rows

/-- `pick_default_country` from `src/app.py`: first of `("Philippines",
"United States")` present in the list, else `countries[0]`.  The Python
`countries[0]` raises on an empty list, so the embedding returns an `Option`. -/
def pick_default_country (countries : List String) : Option String :=
  if ("Philippines") ∈ countries then some ("Philippines")
  else if ("United States") ∈ countries then some ("United States")
  else countries.head?

/-- The `countries.index(default_country)` lookup with its
`except ValueError: default_idx = 0` fallback. -/
def default_idx (countries : List String) (d : String) : Nat :=
  if d ∈ countries then countries.indexOf d else 0

/-- The value of `st.date_input`: either a single date or a two-element range. -/
inductive RawDateInput where
  | single (d : Nat)
  | range (a b : Nat)
deriving DecidableEq, Repr

/-- The normalization block of `src/app.py`: a single date becomes `(d, d)`;
then `if start_date > end_date: start_date, end_date = end_date, start_date`. -/
def normalizeRange : RawDateInput → Nat × Nat
  | RawDateInput.single d => (d, d)
  | RawDateInput.range a b => if a > b then (b, a) else (a, b)

/-- A validated (country, start, end) selection. -/
structure Selection where
  country : String
  start_date : Nat
  end_date : Nat
deriving DecidableEq, Repr

/-- Why a pipeline run stopped: `st.error(msg); st.stop()` in a query helper,
or the `st.warning`/`st.stop` guard for an empty country list. -/
inductive HaltReason where
  | reportedError (msg : String)
  | noCountries
deriving DecidableEq, Repr

/-- The script's main flow: fetch countries, halt if the list is empty, pick
the default country, let the user override it (`choice`, an index into the
list; `none` keeps the default), normalize the date input, build the
`Selection` and run the top-terms query.  The warehouse behaviour of each
query is a parameter (`countriesRun`, `execRun`). -/
def appRun (countriesRun : Except BQError (List String)) (choice : Option Nat)
    (rr : RawDateInput)
    (execRun : Selection → Except BQError (List TopTermRow)) :
    Except HaltReason (Selection × List TopTermRow) :=
  match get_countries_outcome countriesRun with
  | Except.error msg => Except.error (HaltReason.reportedError msg)
  | Except.ok countries =>
    if countries.isEmpty then Except.error HaltReason.noCountries
    else
      let dflt := (pick_default_country countries).getD ("")
      let di := default_idx countries dflt
      let idx := choice.getD di
      let selected_country := countries.getD idx dflt
      let se := normalizeRange rr
      let sel : Selection := ⟨selected_country, se.1, se.2⟩
      match execute_query_outcome (execRun sel) with
      | Except.error msg => Except.error (HaltReason.reportedError msg)
      | Except.ok rows => Except.ok (sel, rows)

/-- Modelled from the spec: `st.cache_data` is Streamlit framework behaviour,
not code in `src/app.py` — the source only declares the decorators with
`ttl=3600` (countries) and `ttl=600` (query results).  A cache entry records
the key, the wall-clock time it was stored, and the value. -/
structure CacheEntry (K V : Type) where
  key : K
  storedAt : Nat
  value : V

/-- A TTL cache: a list of entries, most recent first. -/
structure Cache (K V : Type) where
  entries : List (CacheEntry K V)

/-- The empty cache. -/
def Cache.empty {K V : Type} : Cache K V := ⟨[]⟩

/-- The outcome of one cache access: the value, the updated cache, and whether
the underlying compute function was invoked. -/
structure CacheResult (K V : Type) where
  value : V
  cache : Cache K V
  computed : Bool

/-- Modelled from the spec: `get_or_compute(key, ttl, compute)` — return the
stored value if an entry with an equal key is within its TTL window, otherwise
invoke `compute`, store the result at the current time and return it. -/
def get_or_compute {K V : Type} [DecidableEq K] (c : Cache K V) (now ttl : Nat) (k : K)
    (compute : Unit → V) : CacheResult K V :=
  match c.entries.find? (fun en => decide (en.key = k) && decide (now < en.storedAt + ttl)) with
  | some en => ⟨en.value, c, false⟩
  | none =>
    let v := compute ()
    ⟨v, ⟨⟨k, now, v⟩ :: c.entries⟩, true⟩

/-- The TTL declared on `get_countries` (`@st.cache_data(ttl=3600)`). -/
def countries_cache_ttl : Nat := 3600

/-- The TTL declared on `execute_query` (`@st.cache_data(ttl=600)`). -/
def results_cache_ttl : Nat := 600

/-- C5: a single date input `d` normalizes to `(d, d)`; an out-of-order pair
`(a, b)` with `a > b` normalizes to `(b, a)` (silently — the code swaps without
reporting anything); and every normalized range satisfies `start ≤ end`. -/
theorem normalizeRange_spec (d a b : Nat) :
    normalizeRange (RawDateInput.single d) = (d, d) ∧
    (a > b → normalizeRange (RawDateInput.range a b) = (b, a)) ∧
    (∀ r, (normalizeRange r).1 ≤ (normalizeRange r).2) := by
  refine ⟨rfl, ?_, ?_⟩
  · intro h
    simp [normalizeRange, h]
  · intro r
    cases r with
    | single d => simp [normalizeRange]
    | range a b =>
      simp only [normalizeRange]
      split <;> omega

/-- Witness for C5 at the concrete out-of-order pair `(5, 2)`. -/
theorem normalizeRange_spec_witness :
    normalizeRange (RawDateInput.range 5 2) = (2, 5) :=
  (normalizeRange_spec 0 5 2).2.1 (by decide)

/-- C6: with an empty fetched country list the pipeline halts with the
no-reference-data condition, for every user choice, every date input and every
possible behaviour of the top-terms query — so no Selection is produced and
the top-terms query is never consulted. -/
theorem empty_countries_halts (choice : Option Nat) (rr : RawDateInput)
    (execRun : Selection → Except BQError (List TopTermRow)) :
    appRun (Except.ok []) choice rr execRun = Except.error HaltReason.noCountries := rfl

/-- C7: for a non-empty country list the default is the first of
`("Philippines", "United States")` present in the list; with neither present it
is the first entry of the list, which is the minimum when the list is sorted
(the country query returns it `ORDER BY country_name`). -/
theorem pick_default_country_spec (countries : List String) (h : countries ≠ []) :
    (("Philippines") ∈ countries → pick_default_country countries = some ("Philippines")) ∧
    (("Philippines") ∉ countries → ("United States") ∈ countries →
      pick_default_country countries = some ("United States")) ∧
    (("Philippines") ∉ countries → ("United States") ∉ countries →
      pick_default_country countries = some (countries.head h) ∧
      (List.Sorted (fun a b : String => a ≤ b) countries →
        ∀ y ∈ countries, countries.head h ≤ y)) := by
  refine ⟨?_, ?_, ?_⟩
  · intro hp
    simp [pick_default_country, hp]
  · intro hp hu
    simp [pick_default_country, hp, hu]
  · intro hp hu
    constructor
    · simp [pick_default_country, hp, hu, List.head?_eq_head h]
    · intro hs y hy
      cases countries with
      | nil => exact absurd rfl h
      | cons a l =>
        simp only [List.head_cons]
        rcases List.mem_cons.mp hy with rfl | hyl
        · exact le_refl _
        · exact List.rel_of_sorted_cons hs _ hyl

/-- Witness for C7 at the spec's first scenario:
`["France", "Philippines", "United States"]` defaults to `"Philippines"`. -/
theorem pick_default_country_spec_witness :
    pick_default_country (["France", "Philippines", "United States"]) =
      some ("Philippines") :=
  (pick_default_country_spec (["France", "Philippines", "United States"]) (by decide)).1
    (by decide)

/-- C10: for every non-empty list `pick_default_country` returns an element of
the list, so the `countries.index(default_country)` lookup succeeds (the
`except ValueError` fallback is unreachable) and yields an index in bounds. -/
theorem pick_default_country_mem (countries : List String) (h : countries ≠ []) :
    ∃ d, pick_default_country countries = some d ∧ d ∈ countries ∧
      default_idx countries d = countries.indexOf d ∧
      countries.indexOf d < countries.length := by
  by_cases hp : ("Philippines") ∈ countries
  · refine ⟨("Philippines"), ?_, hp, ?_, List.indexOf_lt_length.mpr hp⟩
    · simp [pick_default_country, hp]
    · simp [default_idx, hp]
  · by_cases hu : ("United States") ∈ countries
    · refine ⟨("United States"), ?_, hu, ?_, List.indexOf_lt_length.mpr hu⟩
      · simp [pick_default_country, hp, hu]
      · simp [default_idx, hu]
    · have hm : countries.head h ∈ countries := List.head_mem h
      refine ⟨countries.head h, ?_, hm, ?_, List.indexOf_lt_length.mpr hm⟩
      · simp [pick_default_country, hp, hu, List.head?_eq_head h]
      · simp [default_idx, hm]

/-- Witness for C10 at the concrete list `["France"]`. -/
theorem pick_default_country_mem_witness :
    ∃ d, pick_default_country (["France"]) = some d ∧ d ∈ (["France"]) ∧
      default_idx (["France"]) d = (["France"]).indexOf d ∧
      (["France"]).indexOf d < (["France"]).length :=
  pick_default_country_mem (["France"]) (by decide)

/-- C3: `Forbidden` (access denied / billing disabled), `BadRequest`
(malformed request) and `TooManyRequests` (rate limit) all map to the single
quota message, in both query helpers; every other failure is surfaced with the
underlying message text appended; in every case the outcome is an error — no
partial result is ever returned. -/
theorem bq_error_classification (e : BQError) :
    (∀ m, e = BQError.forbidden m ∨ e = BQError.badRequest m ∨ e = BQError.tooManyRequests m →
      execute_query_outcome (Except.error e) = Except.error quotaMessage ∧
      get_countries_outcome (Except.error e) = Except.error quotaMessage) ∧
    (∀ m, e = BQError.other m →
      execute_query_outcome (Except.error e) =
        Except.error ("Unexpected error while loading search terms: " ++ m) ∧
      get_countries_outcome (Except.error e) =
        Except.error ("Unexpected error while loading countries: " ++ m)) ∧
    (∀ rows, execute_query_outcome (Except.error e) ≠ Except.ok rows) ∧
    (∀ cs, get_countries_outcome (Except.error e) ≠ Except.ok cs) := by
  refine ⟨?_, ?_, ?_, ?_⟩
  · rintro m (rfl | rfl | rfl) <;> exact ⟨rfl, rfl⟩
  · rintro m rfl
    exact ⟨rfl, rfl⟩
  · intro rows hcontra
    cases e <;> simp [execute_query_outcome] at hcontra
  · intro cs hcontra
    cases e <;> simp [get_countries_outcome] at hcontra

/-- Witness for C3 at a concrete billing-disabled failure. -/
theorem bq_error_classification_witness :
    execute_query_outcome (Except.error (BQError.forbidden ("billing disabled"))) =
      Except.error quotaMessage :=
  ((bq_error_classification (BQError.forbidden ("billing disabled"))).1 ("billing disabled")
    (Or.inl rfl)).1

/-- C4: both job configs carry `maximum_bytes_billed = 1 GB`, and a query whose
scan exceeds the ceiling is rejected by the (spec-modelled) warehouse with a
`BadRequest`-class failure instead of returning truncated rows. -/
theorem cost_ceiling_spec (s e : Nat) (c : String) (bytes : Nat)
    (rowsT : List TopTermRow) (rowsC : List String) (h : 1000000000 < bytes) :
    (top_terms_job_cfg s e c).maximum_bytes_billed = 1000000000 ∧
    countries_job_cfg.maximum_bytes_billed = 1000000000 ∧
    warehouseRun (top_terms_job_cfg s e c) bytes rowsT =
      Except.error (BQError.badRequest ("bytesBilledLimitExceeded")) ∧
    warehouseRun countries_job_cfg bytes rowsC =
      Except.error (BQError.badRequest ("bytesBilledLimitExceeded")) := by
  refine ⟨rfl, rfl, ?_, ?_⟩ <;>
    simp [warehouseRun, top_terms_job_cfg, countries_job_cfg, h]

/-- Witness for C4 at a scan one byte over the ceiling. -/
theorem cost_ceiling_spec_witness :
    warehouseRun (top_terms_job_cfg 0 0 ("X")) 1000000001 ([] : List TopTermRow) =
      Except.error (BQError.badRequest ("bytesBilledLimitExceeded")) :=
  (cost_ceiling_spec 0 0 ("X") 1000000001 [] [] (by decide)).2.2.1

/-- C9: the query text submitted by `execute_query` is the same fixed string
for any two inputs — values reach the warehouse only as the three bound scalar
parameters typed DATE, DATE and STRING; the country query binds none. -/
theorem parameterized_query_constant (c1 c2 : String) (s1 e1 s2 e2 : Nat) :
    (top_terms_request c1 s1 e1).sql = (top_terms_request c2 s2 e2).sql ∧
    (top_terms_request c1 s1 e1).sql = TOP_TERMS_SQL ∧
    (top_terms_request c1 s1 e1).cfg.query_parameters =
      [⟨"start_date", "DATE", ParamValue.date s1⟩,
       ⟨"end_date", "DATE", ParamValue.date e1⟩,
       ⟨"country", "STRING", ParamValue.string c1⟩] ∧
    countries_request.sql = COUNTRIES_SQL ∧
    countries_request.cfg.query_parameters = [] :=
  ⟨rfl, rfl, rfl, rfl, rfl⟩

/-- C8: starting from an empty cache, two consecutive `get_or_compute` calls
with an identical key, the second within the TTL window of the first, invoke
the compute function exactly once (first call computes, second does not) and
the second call returns the previously computed value.  The two cache
instances declare TTLs of 3600 s and 600 s. -/
theorem cache_idempotent {K V : Type} [DecidableEq K] (k : K) (f : Unit → V)
    (now now2 ttl : Nat) (h : now2 < now + ttl) :
    countries_cache_ttl = 3600 ∧ results_cache_ttl = 600 ∧
    (get_or_compute (Cache.empty) now ttl k f).computed = true ∧
    (get_or_compute (get_or_compute (Cache.empty) now ttl k f).cache now2 ttl k f).computed =
      false ∧
    (get_or_compute (get_or_compute (Cache.empty) now ttl k f).cache now2 ttl k f).value =
      (get_or_compute (Cache.empty) now ttl k f).value ∧
    (get_or_compute (Cache.empty) now ttl k f).value = f () := by
  have h1 : get_or_compute (Cache.empty : Cache K V) now ttl k f =
      ⟨f (), ⟨[⟨k, now, f ()⟩]⟩, true⟩ := rfl
  have h2 : get_or_compute (⟨[⟨k, now, f ()⟩]⟩ : Cache K V) now2 ttl k f =
      ⟨f (), ⟨[⟨k, now, f ()⟩]⟩, false⟩ := by
    simp [get_or_compute, List.find?, h]
  rw [h1, h2]
  exact ⟨rfl, rfl, rfl, rfl, rfl, rfl⟩

/-- Witness for C8 with a fresh key at times 0 and 599 under the 600 s TTL. -/
theorem cache_idempotent_witness :
    (get_or_compute (Cache.empty) 0 600 0 (fun _ => (42 : Nat))).computed = true ∧
    (get_or_compute (get_or_compute (Cache.empty) 0 600 0
        (fun _ => (42 : Nat))).cache 599 600 0 (fun _ => (42 : Nat))).computed = false ∧
    (get_or_compute (get_or_compute (Cache.empty) 0 600 0
        (fun _ => (42 : Nat))).cache 599 600 0 (fun _ => (42 : Nat))).value =
      (get_or_compute (Cache.empty) 0 600 0 (fun _ => (42 : Nat))).value :=
  let full := cache_idempotent 0 (fun _ => (42 : Nat)) 0 599 600 (by decide)
  ⟨full.2.2.1, full.2.2.2.1, full.2.2.2.2.1⟩

/-- `scoreBefore` is irreflexive. -/
theorem scoreBefore_irrefl (a : Nat × SourceRow) : scoreBefore a a = false := by
  simp [scoreBefore]

/-- `scoreBefore` is transitive. -/
theorem scoreBefore_trans {a b c : Nat × SourceRow} (h1 : scoreBefore a b = true)
    (h2 : scoreBefore b c = true) : scoreBefore a c = true := by
  simp only [scoreBefore, Bool.or_eq_true, Bool.and_eq_true, decide_eq_true_eq] at h1 h2 ⊢
  omega

/-- `scoreBefore` is total on rows with distinct source positions. -/
theorem scoreBefore_total {a b : Nat × SourceRow} (h : a.1 ≠ b.1) :
    scoreBefore a b = true ∨ scoreBefore b a = true := by
  simp only [scoreBefore, Bool.or_eq_true, Bool.and_eq_true, decide_eq_true_eq]
  omega

/-- Every filtered row carries the requested country. -/
theorem windowRows_country (tbl : List SourceRow) (s e : Nat) (c : String)
    {q : Nat × SourceRow} (hq : q ∈ windowRows tbl s e c) : q.2.country_name = some c := by
  have := (List.mem_filter.mp hq).2
  simp only [inWindow, Bool.and_eq_true, decide_eq_true_eq] at this
  exact this.2

/-- The source positions of the filtered rows are distinct. -/
theorem windowRows_fst_nodup (tbl : List SourceRow) (s e : Nat) (c : String) :
    ((windowRows tbl s e c).map Prod.fst).Nodup := by
  have h1 : List.Sublist (windowRows tbl s e c) tbl.enum := List.filter_sublist _
  have h2 : List.Sublist ((windowRows tbl s e c).map Prod.fst) (tbl.enum.map Prod.fst) :=
    h1.map _
  rw [List.enum_map_fst] at h2
  exact List.Nodup.sublist h2 (List.nodup_range _)

/-- Distinct filtered rows have distinct source positions. -/
theorem windowRows_fst_inj (tbl : List SourceRow) (s e : Nat) (c : String)
    {p q : Nat × SourceRow} (hp : p ∈ windowRows tbl s e c) (hq : q ∈ windowRows tbl s e c)
    (h : p.1 = q.1) : p = q :=
  List.inj_on_of_nodup_map (windowRows_fst_nodup tbl s e c) hp hq h

/-- Every bucket row has the bucket's date. -/
theorem bucketRows_week (tbl : List SourceRow) (s e : Nat) (c : String) (d : Nat)
    {q : Nat × SourceRow} (hq : q ∈ bucketRows tbl s e c d) : q.2.week = d := by
  have := (List.mem_filter.mp hq).2
  simpa using this

/-- The bucket rows form a duplicate-free list. -/
theorem bucketRows_nodup (tbl : List SourceRow) (s e : Nat) (c : String) (d : Nat) :
    (bucketRows tbl s e c d).Nodup :=
  (List.Nodup.of_map _ (windowRows_fst_nodup tbl s e c)).filter _

/-- For a bucket row, the SQL `rnk` is one more than the number of bucket rows
preceding it in the window order: the partition of `ROW_NUMBER` restricted to
the requested country is exactly the date bucket. -/
theorem rowNumber_eq_bucketBeforeCount (tbl : List SourceRow) (s e : Nat) (c : String)
    (d : Nat) {p : Nat × SourceRow} (hp : p ∈ bucketRows tbl s e c d) :
    rowNumber (windowRows tbl s e c) p = 1 + bucketBeforeCount tbl s e c d p := by
  have hpw : p ∈ windowRows tbl s e c := (List.mem_filter.mp hp).1
  have hpd : p.2.week = d := bucketRows_week tbl s e c d hp
  have hpc : p.2.country_name = some c := windowRows_country tbl s e c hpw
  unfold rowNumber bucketBeforeCount bucketRows
  rw [List.filter_filter]
  have hfe : (windowRows tbl s e c).filter (fun q => sameBucket q p && scoreBefore q p) =
      (windowRows tbl s e c).filter (fun q => scoreBefore q p && decide (q.2.week = d)) := by
    apply List.filter_congr
    intro q hq
    have hqc : q.2.country_name = some c := windowRows_country tbl s e c hq
    simp [sameBucket, hqc, hpc, hpd, Bool.and_comm]
  rw [hfe]

/-- The before-count of a bucket row is below the bucket size. -/
theorem bucketBeforeCount_lt (tbl : List SourceRow) (s e : Nat) (c : String) (d : Nat)
    {p : Nat × SourceRow} (hp : p ∈ bucketRows tbl s e c d) :
    bucketBeforeCount tbl s e c d p < (bucketRows tbl s e c d).length := by
  unfold bucketBeforeCount
  rw [List.length_filter_lt_length_iff_exists]
  exact ⟨p, hp, by simp [scoreBefore_irrefl]⟩

/-- The before-count is strictly monotone along the window order. -/
theorem bucketBeforeCount_strict (tbl : List SourceRow) (s e : Nat) (c : String) (d : Nat)
    {p q : Nat × SourceRow} (hp : p ∈ bucketRows tbl s e c d)
    (hpq : scoreBefore p q = true) :
    bucketBeforeCount tbl s e c d p < bucketBeforeCount tbl s e c d q := by
  have hsub : List.Sublist ((bucketRows tbl s e c d).filter (fun x => scoreBefore x p))
      ((bucketRows tbl s e c d).filter (fun x => scoreBefore x q)) :=
    List.monotone_filter_right _ (fun x hx => scoreBefore_trans hx hpq)
  have hle := hsub.length_le
  rcases Nat.lt_or_ge (bucketBeforeCount tbl s e c d p) (bucketBeforeCount tbl s e c d q)
    with hlt | hge
  · exact hlt
  · exfalso
    have heq : (bucketRows tbl s e c d).filter (fun x => scoreBefore x p) =
        (bucketRows tbl s e c d).filter (fun x => scoreBefore x q) :=
      hsub.eq_of_length (Nat.le_antisymm hle hge)
    have hqmem : p ∈ (bucketRows tbl s e c d).filter (fun x => scoreBefore x q) :=
      List.mem_filter.mpr ⟨hp, hpq⟩
    rw [← heq] at hqmem
    have hself := (List.mem_filter.mp hqmem).2
    rw [scoreBefore_irrefl] at hself
    exact Bool.false_ne_true hself

/-- The before-count is injective on the bucket. -/
theorem bucketBeforeCount_injOn (tbl : List SourceRow) (s e : Nat) (c : String) (d : Nat)
    {p q : Nat × SourceRow} (hp : p ∈ bucketRows tbl s e c d)
    (hq : q ∈ bucketRows tbl s e c d)
    (h : bucketBeforeCount tbl s e c d p = bucketBeforeCount tbl s e c d q) : p = q := by
  by_contra hne
  have hpw := (List.mem_filter.mp hp).1
  have hqw := (List.mem_filter.mp hq).1
  have hfst : p.1 ≠ q.1 := fun hf => hne (windowRows_fst_inj tbl s e c hpw hqw hf)
  rcases scoreBefore_total hfst with hb | hb
  · exact absurd h (Nat.ne_of_lt (bucketBeforeCount_strict tbl s e c d hp hb))
  · exact absurd h.symm (Nat.ne_of_lt (bucketBeforeCount_strict tbl s e c d hq hb))

/-- The before-counts over a bucket of size `M` are exactly `{0, ..., M-1}`. -/
theorem bucketBeforeCount_image (tbl : List SourceRow) (s e : Nat) (c : String) (d : Nat) :
    ((bucketRows tbl s e c d).toFinset.image (bucketBeforeCount tbl s e c d)) =
      Finset.range (bucketRows tbl s e c d).length := by
  have hinj : Set.InjOn (bucketBeforeCount tbl s e c d)
      ((bucketRows tbl s e c d).toFinset : Set (Nat × SourceRow)) := by
    intro p hp q hq hcnt
    rw [Finset.mem_coe, List.mem_toFinset] at hp hq
    exact bucketBeforeCount_injOn tbl s e c d hp hq hcnt
  apply Finset.eq_of_subset_of_card_le
  · intro x hx
    rw [Finset.mem_image] at hx
    obtain ⟨p, hp, rfl⟩ := hx
    rw [List.mem_toFinset] at hp
    exact Finset.mem_range.mpr (bucketBeforeCount_lt tbl s e c d hp)
  · rw [Finset.card_range, Finset.card_image_of_injOn hinj,
      List.toFinset_card_of_nodup (bucketRows_nodup tbl s e c d)]

/-- Every value below the bucket size is attained by the before-count. -/
theorem bucketBeforeCount_surj (tbl : List SourceRow) (s e : Nat) (c : String) (d : Nat)
    {y : Nat} :
    (∃ p ∈ bucketRows tbl s e c d, bucketBeforeCount tbl s e c d p = y) ↔
      y < (bucketRows tbl s e c d).length := by
  constructor
  · rintro ⟨p, hp, rfl⟩
    exact bucketBeforeCount_lt tbl s e c d hp
  · intro hy
    have hmem : y ∈ Finset.range (bucketRows tbl s e c d).length := Finset.mem_range.mpr hy
    rw [← bucketBeforeCount_image tbl s e c d, Finset.mem_image] at hmem
    obtain ⟨p, hp, hcnt⟩ := hmem
    exact ⟨p, List.mem_toFinset.mp hp, hcnt⟩

/-- The retained rows of date `d` are the bucket rows with `rnk ≤ 5`, each
paired with its `rnk`. -/
theorem keptRows_filter_week (tbl : List SourceRow) (s e : Nat) (c : String) (d : Nat) :
    (keptRows tbl s e c).filter (fun pr => decide (pr.1.2.week = d)) =
      ((bucketRows tbl s e c d).filter
        (fun p => decide (rowNumber (windowRows tbl s e c) p ≤ 5))).map
        (fun p => (p, rowNumber (windowRows tbl s e c) p)) := by
  unfold keptRows weekly_terms bucketRows
  rw [List.filter_filter, List.filter_map, List.filter_filter]
  apply congrArg
  apply List.filter_congr
  intro q hq
  simp [Function.comp, Bool.and_comm]

/-- C1 counterexample: for the concrete table with two rows of term `"a"` on
date 3 whose source `rank` column holds 7 and 9, the `rank` values the query
emits for date 3 are `{7, 9}` — the source column passed through — and not
`{1, ..., min(5, N)}` with `N` the number of distinct terms on that date
(`N = 1` here). -/
theorem topTerms_rank_values_counterexample :
    (((topTermsQuery
        [⟨"a", 3, 10, 7, some ("X")⟩, ⟨"a", 3, 5, 9, some ("X")⟩] 0 10 ("X")).filter
        (fun r => decide (r.date = 3))).map (fun r => r.rank)).toFinset ≠
      Finset.Icc 1 (min 5
        (distinctTermCount
          [⟨"a", 3, 10, 7, some ("X")⟩, ⟨"a", 3, 5, 9, some ("X")⟩] 0 10 ("X") 3)) := by
  decide

/-- C1 (amended): within each date bucket the computed `ROW_NUMBER` values
(`rnk`) of the retained rows are exactly `{1, ..., min(5, M)}` with no gaps,
where `M` is the number of source rows for that date and country in range.
(The emitted `rank` column is the source table's `rank` field, and `M` counts
rows, not distinct terms.) -/
theorem keptRows_rnk_values (tbl : List SourceRow) (s e : Nat) (c : String) (d : Nat) :
    ((((keptRows tbl s e c).filter (fun pr => decide (pr.1.2.week = d))).map
      (fun pr => pr.2)).toFinset) =
      Finset.Icc 1 (min 5 (bucketRows tbl s e c d).length) := by
  rw [keptRows_filter_week, List.map_map]
  ext x
  simp only [List.mem_toFinset, List.mem_map, List.mem_filter, decide_eq_true_eq,
    Finset.mem_Icc, Function.comp]
  constructor
  · rintro ⟨p, ⟨hp, hle⟩, rfl⟩
    have hlt := bucketBeforeCount_lt tbl s e c d hp
    have heq := rowNumber_eq_bucketBeforeCount tbl s e c d hp
    omega
  · rintro ⟨hx1, hx2⟩
    have hxlen : x - 1 < (bucketRows tbl s e c d).length := by omega
    obtain ⟨p, hp, hcnt⟩ := (bucketBeforeCount_surj tbl s e c d).mpr hxlen
    have heq := rowNumber_eq_bucketBeforeCount tbl s e c d hp
    exact ⟨p, ⟨hp, by omega⟩, by omega⟩

/-- The bucket rows retained by `rnk ≤ 5` number at most 5. -/
theorem bucket_kept_length_le (tbl : List SourceRow) (s e : Nat) (c : String) (d : Nat) :
    ((bucketRows tbl s e c d).filter
      (fun p => decide (rowNumber (windowRows tbl s e c) p ≤ 5))).length ≤ 5 := by
  have hsub : ∀ p ∈ (bucketRows tbl s e c d).filter
      (fun p => decide (rowNumber (windowRows tbl s e c) p ≤ 5)),
      p ∈ bucketRows tbl s e c d := fun p hp => (List.mem_filter.mp hp).1
  have hnd : ((bucketRows tbl s e c d).filter
      (fun p => decide (rowNumber (windowRows tbl s e c) p ≤ 5))).Nodup :=
    (bucketRows_nodup tbl s e c d).filter _
  have hmapnd : (((bucketRows tbl s e c d).filter
      (fun p => decide (rowNumber (windowRows tbl s e c) p ≤ 5))).map
      (fun p => rowNumber (windowRows tbl s e c) p)).Nodup := by
    refine List.Nodup.map_on ?_ hnd
    intro p hp q hq hpq
    have hp' := hsub p hp
    have hq' := hsub q hq
    have e1 := rowNumber_eq_bucketBeforeCount tbl s e c d hp'
    have e2 := rowNumber_eq_bucketBeforeCount tbl s e c d hq'
    exact bucketBeforeCount_injOn tbl s e c d hp' hq' (by omega)
  have hfsub : (((bucketRows tbl s e c d).filter
      (fun p => decide (rowNumber (windowRows tbl s e c) p ≤ 5))).map
      (fun p => rowNumber (windowRows tbl s e c) p)).toFinset ⊆ Finset.Icc 1 5 := by
    intro x hx
    rw [List.mem_toFinset, List.mem_map] at hx
    obtain ⟨p, hp, rfl⟩ := hx
    have hp' := hsub p hp
    have hle : rowNumber (windowRows tbl s e c) p ≤ 5 := by
      have hmem := (List.mem_filter.mp hp).2
      simpa using hmem
    have e1 := rowNumber_eq_bucketBeforeCount tbl s e c d hp'
    rw [Finset.mem_Icc]
    omega
  have hcard := Finset.card_le_card hfsub
  rw [List.toFinset_card_of_nodup hmapnd, Nat.card_Icc, List.length_map] at hcard
  omega

/-- The query output never holds more than 5 rows of any one date. -/
theorem topTermsQuery_count (tbl : List SourceRow) (s e : Nat) (c : String) (d : Nat) :
    ((topTermsQuery tbl s e c).filter (fun r => decide (r.date = d))).length ≤ 5 := by
  have hperm := List.perm_insertionSort orderByLeP (keptRows tbl s e c)
  have hlen : ((topTermsQuery tbl s e c).filter (fun r => decide (r.date = d))).length =
      ((keptRows tbl s e c).filter (fun pr => decide (pr.1.2.week = d))).length := by
    unfold topTermsQuery
    rw [List.filter_map, List.length_map]
    exact (hperm.filter _).length_eq
  rw [hlen, keptRows_filter_week, List.length_map]
  exact bucket_kept_length_le tbl s e c d

/-- C2: for every table and every input the query output holds at most 5 rows
per distinct date, and its rows are ordered by date ascending then by the
emitted `rank` column ascending — in particular this covers every valid
Selection (country in the reference set, `start ≤ end`). -/
theorem topTermsQuery_le5_and_sorted (tbl : List SourceRow) (s e : Nat) (c : String) :
    (∀ d, ((topTermsQuery tbl s e c).filter (fun r => decide (r.date = d))).length ≤ 5) ∧
    List.Pairwise dateRankLe (topTermsQuery tbl s e c) := by
  constructor
  · intro d
    exact topTermsQuery_count tbl s e c d
  · unfold topTermsQuery
    refine List.Pairwise.map _ ?_ (List.sorted_insertionSort orderByLeP (keptRows tbl s e c))
    intro a b hab
    simp only [orderByLeP, orderByLe, Bool.or_eq_true, Bool.and_eq_true,
      decide_eq_true_eq] at hab
    simp only [dateRankLe]
    omega
